import Mathlib

/-!
Verification of the NeuralOS conversational session engine.

This file gives a shallow embedding, in Lean 4, of the parts of the
NeuralOS source that the specification's claims are about:

* `classifyError` and the retry loops of `ClaudeClient.stream` and
  `ClaudeClient.send` (src/services/ai/claudeClient.ts);
* the response directive parser `parseActions`, `parseCardHeader`,
  `getDisplayText` and the `sendMessage` turn logic of
  `useStreamingResponse` (src/hooks/useStreamingResponse.ts);
* the `stop` method and the `onSpeechResults` listener of
  `SpeechRecognition` (src/services/voice/speechRecognition.ts).

JavaScript strings are modelled as Lean `String`, JavaScript values
produced by `JSON.parse` as the inductive `Json` below, exceptions as
`Option`/`Except`, and the asynchronous retry loops as explicitly fuelled
recursions whose fuel mirrors the loop bound `retries <= MAX_RETRIES`.
-/

namespace NeuralOS

/-! ## A model of JavaScript JSON values

`Json` models the values `JSON.parse` can return: `null`, booleans,
numbers, strings, arrays and objects.  An object keeps its fields as a
list; duplicate keys can occur in the surface text, and property access
takes the last occurrence, as `JSON.parse` does.  JSON numbers are kept
as integers: the parser below validates the full number grammar but
stores only the integer part, which is harmless here because no claim
of this development mentions a numeric field.
-/

inductive Json where
  | null : Json
  | bool (b : Bool) : Json
  | num (n : Int) : Json
  | str (s : String) : Json
  | arr (xs : List Json) : Json
  | obj (kvs : List (String × Json)) : Json

mutual

def Json.beq : Json → Json → Bool
  | .null, .null => true
  | .bool a, .bool b => a == b
  | .num a, .num b => a == b
  | .str a, .str b => a == b
  | .arr a, .arr b => Json.beqList a b
  | .obj a, .obj b => Json.beqKvs a b
  | _, _ => false

def Json.beqList : List Json → List Json → Bool
  | [], [] => true
  | a :: as, b :: bs => Json.beq a b && Json.beqList as bs
  | _, _ => false

def Json.beqKvs : List (String × Json) → List (String × Json) → Bool
  | [], [] => true
  | (k, v) :: as, (l, w) :: bs => k == l && Json.beq v w && Json.beqKvs as bs
  | _, _ => false

end

mutual

def Json.beq_iff : ∀ a b : Json, Json.beq a b = true ↔ a = b
  | .null, .null => by simp [Json.beq]
  | .bool _, .bool _ => by simp [Json.beq]
  | .num _, .num _ => by simp [Json.beq]
  | .str _, .str _ => by simp [Json.beq]
  | .arr a, .arr b => by simp [Json.beq, Json.beqList_iff a b]
  | .obj a, .obj b => by simp [Json.beq, Json.beqKvs_iff a b]
  | .null, .bool _ | .null, .num _ | .null, .str _ | .null, .arr _ | .null, .obj _
  | .bool _, .null | .bool _, .num _ | .bool _, .str _ | .bool _, .arr _ | .bool _, .obj _
  | .num _, .null | .num _, .bool _ | .num _, .str _ | .num _, .arr _ | .num _, .obj _
  | .str _, .null | .str _, .bool _ | .str _, .num _ | .str _, .arr _ | .str _, .obj _
  | .arr _, .null | .arr _, .bool _ | .arr _, .num _ | .arr _, .str _ | .arr _, .obj _
  | .obj _, .null | .obj _, .bool _ | .obj _, .num _ | .obj _, .str _ | .obj _, .arr _ => by
    simp [Json.beq]

def Json.beqList_iff : ∀ a b : List Json, Json.beqList a b = true ↔ a = b
  | [], [] => by simp [Json.beqList]
  | a :: as, b :: bs => by simp [Json.beqList, Json.beq_iff a b, Json.beqList_iff as bs]
  | [], _ :: _ => by simp [Json.beqList]
  | _ :: _, [] => by simp [Json.beqList]

def Json.beqKvs_iff :
    ∀ a b : List (String × Json), Json.beqKvs a b = true ↔ a = b
  | [], [] => by simp [Json.beqKvs]
  | (k, v) :: as, (l, w) :: bs => by
    simp [Json.beqKvs, Json.beq_iff v w, Json.beqKvs_iff as bs, and_assoc]
  | [], _ :: _ => by simp [Json.beqKvs]
  | _ :: _, [] => by simp [Json.beqKvs]

end

instance : DecidableEq Json := fun a b =>
  decidable_of_iff (Json.beq a b = true) (Json.beq_iff a b)

/-! ## String helpers

`strIncludes` models JavaScript `String.prototype.includes`, and
`stripLit` strips an exact literal from the front of a character list.
`jsWs` is the set of (ASCII) characters matched by the regex class
`\s`; `natOfDigits` is the value `parseInt(ds, 10)` gives to a
non-empty digit string.
-/

def strIncludes (s pat : String) : Bool :=
  s.toList.tails.any fun t => pat.toList.isPrefixOf t

/-- ASCII lowercasing of one character, as `toLowerCase` acts on the
ASCII error messages this development inspects. -/
def lowerChar (c : Char) : Char :=
  if 'A' ≤ c ∧ c ≤ 'Z' then Char.ofNat (c.toNat + 32) else c

/-- Model of `String.prototype.toLowerCase` (ASCII range). -/
def strToLower (s : String) : String :=
  String.mk (s.toList.map lowerChar)

/-- Split a text into its lines (separator `\n`). -/
def linesAux : List Char → List Char → List String
  | [], acc => [String.mk acc.reverse]
  | c :: cs, acc =>
    if c = '\n' then String.mk acc.reverse :: linesAux cs []
    else linesAux cs (c :: acc)

def splitLines (s : String) : List String :=
  linesAux s.toList []

/-- Rejoin lines with `\n`. -/
def joinLines : List String → String
  | [] => ""
  | [l] => l
  | l :: ls => l ++ "\n" ++ joinLines ls

def stripLit : List Char → List Char → Option (List Char)
  | l, [] => some l
  | [], _ :: _ => none
  | c :: cs, d :: ds => if c = d then stripLit cs ds else none

def jsWs (c : Char) : Bool :=
  c = ' ' || c = '\t' || c = '\n' || c = '\r' || c = '\x0c' || c = '\x0b'

def natOfDigits (ds : List Char) : Nat :=
  ds.foldl (fun n c => 10 * n + (c.toNat - '0'.toNat)) 0

/-! ## A model of `JSON.parse`

A fuelled recursive-descent parser for the JSON grammar, total by
construction; `none` models a thrown `SyntaxError`.  Object fields are
kept in textual order (duplicates included); string escapes are the
eight JSON escapes plus `\uXXXX`; raw control characters inside a
string are rejected, as `JSON.parse` rejects them.  Number literals
are validated against the full JSON number grammar, but the stored
value keeps only the (signed) integer part — no claim in this file
depends on the value of a numeric field.
-/

def jsonWsCh (c : Char) : Bool :=
  c = ' ' || c = '\t' || c = '\n' || c = '\r'

def skipJsonWs : List Char → List Char
  | [] => []
  | c :: cs => if jsonWsCh c then skipJsonWs cs else c :: cs

def hexVal (c : Char) : Option Nat :=
  if '0' ≤ c ∧ c ≤ '9' then some (c.toNat - '0'.toNat)
  else if 'a' ≤ c ∧ c ≤ 'f' then some (c.toNat - 'a'.toNat + 10)
  else if 'A' ≤ c ∧ c ≤ 'F' then some (c.toNat - 'A'.toNat + 10)
  else none

def escChar (c : Char) : Option Char :=
  if c = '"' then some '"'
  else if c = '\\' then some '\\'
  else if c = '/' then some '/'
  else if c = 'b' then some '\x08'
  else if c = 'f' then some '\x0c'
  else if c = 'n' then some '\n'
  else if c = 'r' then some '\r'
  else if c = 't' then some '\t'
  else none

def parseStringBody : Nat → List Char → Option (List Char × List Char)
  | 0, _ => none
  | _, [] => none
  | fuel + 1, c :: cs =>
    if c = '"' then some ([], cs)
    else if c = '\\' then
      match cs with
      | 'u' :: h1 :: h2 :: h3 :: h4 :: rest =>
        match hexVal h1, hexVal h2, hexVal h3, hexVal h4 with
        | some a, some b, some d, some e =>
          let n := ((a * 16 + b) * 16 + d) * 16 + e
          (parseStringBody fuel rest).map fun p => (Char.ofNat n :: p.1, p.2)
        | _, _, _, _ => none
      | e :: rest =>
        match escChar e with
        | some ch => (parseStringBody fuel rest).map fun p => (ch :: p.1, p.2)
        | none => none
      | [] => none
    else if c.toNat < 32 then none
    else (parseStringBody fuel cs).map fun p => (c :: p.1, p.2)

def digitSpan : List Char → List Char × List Char
  | [] => ([], [])
  | c :: cs =>
    if c.isDigit then
      let p := digitSpan cs
      (c :: p.1, p.2)
    else ([], c :: cs)

def parseNumber (l : List Char) : Option (Json × List Char) :=
  let signed := match l with
    | '-' :: r => (true, r)
    | _ => (false, l)
  let neg := signed.1
  let l1 := signed.2
  let p := digitSpan l1
  let ds := p.1
  let r := p.2
  if ds.isEmpty then none
  else if 1 < ds.length ∧ ds.head? = some '0' then none
  else
    let fracStep : Option (List Char) :=
      match r with
      | '.' :: r2 =>
        let q := digitSpan r2
        if q.1.isEmpty then none else some q.2
      | _ => some r
    match fracStep with
    | none => none
    | some r3 =>
      let expStep : Option (List Char) :=
        match r3 with
        | 'e' :: r4 | 'E' :: r4 =>
          let r5 := match r4 with
            | '+' :: r6 => r6
            | '-' :: r6 => r6
            | _ => r4
          let q := digitSpan r5
          if q.1.isEmpty then none else some q.2
        | _ => some r3
      match expStep with
      | none => none
      | some r7 =>
        let v : Int := Int.ofNat (natOfDigits ds)
        some (Json.num (if neg then -v else v), r7)

mutual

def parseVal : Nat → List Char → Option (Json × List Char)
  | 0, _ => none
  | fuel + 1, l =>
    match skipJsonWs l with
    | '{' :: cs =>
      (match skipJsonWs cs with
       | '}' :: rest => some (Json.obj [], rest)
       | cs1 => (parseObjItems fuel cs1).map fun p => (Json.obj p.1, p.2))
    | '[' :: cs =>
      (match skipJsonWs cs with
       | ']' :: rest => some (Json.arr [], rest)
       | cs1 => (parseArrItems fuel cs1).map fun p => (Json.arr p.1, p.2))
    | '"' :: cs => (parseStringBody (fuel + 1) cs).map fun p => (Json.str (String.mk p.1), p.2)
    | 't' :: 'r' :: 'u' :: 'e' :: rest => some (Json.bool true, rest)
    | 'f' :: 'a' :: 'l' :: 's' :: 'e' :: rest => some (Json.bool false, rest)
    | 'n' :: 'u' :: 'l' :: 'l' :: rest => some (Json.null, rest)
    | l1 => parseNumber l1

def parseArrItems : Nat → List Char → Option (List Json × List Char)
  | 0, _ => none
  | fuel + 1, l =>
    match parseVal fuel l with
    | none => none
    | some (v, r) =>
      match skipJsonWs r with
      | ',' :: r2 =>
        (parseArrItems fuel r2).map fun p => (v :: p.1, p.2)
      | ']' :: r2 => some ([v], r2)
      | _ => none

def parseObjItems : Nat → List Char → Option (List (String × Json) × List Char)
  | 0, _ => none
  | fuel + 1, l =>
    match skipJsonWs l with
    | '"' :: cs =>
      (match parseStringBody (fuel + 1) cs with
       | none => none
       | some (key, r) =>
         match skipJsonWs r with
         | ':' :: r2 =>
           (match parseVal fuel r2 with
            | none => none
            | some (v, r3) =>
              match skipJsonWs r3 with
              | ',' :: r4 =>
                (parseObjItems fuel r4).map fun p => ((String.mk key, v) :: p.1, p.2)
              | '}' :: r4 => some ([(String.mk key, v)], r4)
              | _ => none)
         | _ => none)
    | _ => none

end

def jsonParse (s : String) : Option Json :=
  match parseVal (s.length + 1) s.toList with
  | some (v, rest) => if (skipJsonWs rest).isEmpty then some v else none
  | none => none

/-! ## JavaScript property access and truthiness -/

/-- Property access `v[k]` on a `JSON.parse` result: defined for objects
(the last duplicate key wins, as in JavaScript object construction);
`none` models `undefined`.  Access on `null` throws in JavaScript and is
handled at the use site. -/
def jsGet (v : Json) (k : String) : Option Json :=
  match v with
  | .obj kvs => kvs.foldl (fun acc p => if p.1 = k then some p.2 else acc) none
  | _ => none

/-- JavaScript truthiness of a `JSON.parse` value. -/
def jsTruthy : Json → Bool
  | .null => false
  | .bool b => b
  | .num n => n ≠ 0
  | .str s => s ≠ ""
  | .arr _ => true
  | .obj _ => true

/-- JavaScript `a || d` where `a` may be `undefined` (`none`). -/
def jsOrElse (a : Option Json) (d : Json) : Json :=
  match a with
  | some v => if jsTruthy v then v else d
  | none => d

/-! ## Completion Client (src/services/ai/claudeClient.ts)

`classifyError` is ported clause for clause.  A raw transport error is
modelled as `JsError` (its `name` and its `message`); the source's
`error instanceof Error` guard is dropped because a non-`Error` value
goes straight to the final `unknown` branch, which no claim exercises.
-/

def MAX_RETRIES : Nat := 3

def BASE_RETRY_DELAY_MS : Nat := 1000

structure JsError where
  name : String
  message : String
deriving DecidableEq

inductive AIErrorType where
  | network
  | auth
  | rate_limit
  | timeout
  | server
  | unknown
deriving DecidableEq

structure AIError where
  type : AIErrorType
  message : String
  retryable : Bool
  retryAfterMs : Option Nat
deriving DecidableEq

/-- Model of the regex literal part `after[:\s]*(\d+)` applied at the
head of `r`: strips the literal, skips `:` and whitespace, then takes a
maximal non-empty digit run. -/
def retryAfterTail (r : List Char) : Option Nat :=
  match stripLit r "after".toList with
  | none => none
  | some r2 =>
    let r3 := r2.dropWhile fun c => c = ':' || jsWs c
    let p := digitSpan r3
    if p.1.isEmpty then none else some (natOfDigits p.1)

/-- Model of `/retry.?after[:\s]*(\d+)/` anchored at the head of `l`:
after the literal `retry`, the greedy `.?` first tries to consume one
character, then none. -/
def retryAfterAt (l : List Char) : Option Nat :=
  match stripLit l "retry".toList with
  | none => none
  | some r =>
    match r with
    | c :: r2 =>
      (match retryAfterTail r2 with
       | some n => some n
       | none => retryAfterTail (c :: r2))
    | [] => none

/-- Leftmost match of `/retry.?after[:\s]*(\d+)/i` over an
already-lowercased message, returning the captured digits as a `Nat`. -/
def retryAfterScan : List Char → Option Nat
  | [] => none
  | c :: cs =>
    match retryAfterAt (c :: cs) with
    | some n => some n
    | none => retryAfterScan cs

/-- Port of `classifyError` (claudeClient.ts lines 54-146): the raw
error message is lowercased and matched, in order, against cancellation,
network, auth, rate-limit, server and timeout markers, with a retryable
`unknown` fallback. -/
def classifyError (e : JsError) : AIError :=
  let msg := strToLower e.message
  let name := e.name
  if name = "AbortError" || strIncludes msg "aborted" then
    { type := .timeout, message := "Request was cancelled.",
      retryable := false, retryAfterMs := none }
  else if strIncludes msg "network" || strIncludes msg "fetch"
      || strIncludes msg "econnrefused" || strIncludes msg "enotfound" then
    { type := .network,
      message := "Can\x27t reach the server. Check your connection and try again.",
      retryable := true, retryAfterMs := some 2000 }
  else if strIncludes msg "401" || strIncludes msg "unauthorized"
      || strIncludes msg "authentication" then
    { type := .auth, message := "API key is invalid or expired. Check your settings.",
      retryable := false, retryAfterMs := none }
  else if strIncludes msg "429" || strIncludes msg "rate limit"
      || strIncludes msg "too many" then
    let retryAfter := match retryAfterScan msg.toList with
      | some n => n * 1000
      | none => 10000
    { type := .rate_limit,
      message := "Too many requests. Waiting a moment before trying again.",
      retryable := true, retryAfterMs := some retryAfter }
  else if strIncludes msg "500" || strIncludes msg "502" || strIncludes msg "503"
      || strIncludes msg "529" || strIncludes msg "overloaded" then
    { type := .server, message := "Server is temporarily busy. Retrying...",
      retryable := true, retryAfterMs := some 3000 }
  else if strIncludes msg "timeout" || strIncludes msg "timed out" then
    { type := .timeout,
      message := "Request timed out. Try a shorter question or check your connection.",
      retryable := true, retryAfterMs := some 2000 }
  else
    { type := .unknown, message := "Something went wrong. Try again.",
      retryable := true, retryAfterMs := some 2000 }

/-- The wait computed before retry number `retries` (`retries ≥ 1`),
from `aiError.retryAfterMs || BASE_RETRY_DELAY_MS * Math.pow(2, retries - 1)`
in both retry loops; a missing or zero `retryAfterMs` is falsy in
JavaScript, so both fall through to the exponential schedule. -/
def retryDelay (err : AIError) (retries : Nat) : Nat :=
  match err.retryAfterMs with
  | some v => if v ≠ 0 then v else BASE_RETRY_DELAY_MS * 2 ^ (retries - 1)
  | none => BASE_RETRY_DELAY_MS * 2 ^ (retries - 1)

/-! ### The `send` retry loop

`ClaudeClient.send` (lines 377-426) runs `while (retries <= MAX_RETRIES)`;
on success it returns, on failure it classifies the error, throws it if
it is not retryable or the retry budget is spent, and otherwise sleeps
for `retryDelay` and tries again.  The transport is modelled as a
function from the attempt number (0-based) to that attempt's outcome.
The recursion is fuelled by the remaining permitted loop iterations;
the fuel-0 case is the dead code after the loop, which throws
`classifyError(new Error('Max retries exceeded'))`. -/

structure SendRun (α : Type) where
  attempts : Nat
  delays : List Nat
  result : Except AIError α

def sendGo (attempt : Nat → Except JsError α) : Nat → Nat → SendRun α
  | _, 0 => ⟨0, [], .error (classifyError ⟨"Error", "Max retries exceeded"⟩)⟩
  | retries, fuel + 1 =>
    match attempt retries with
    | .ok a => ⟨1, [], .ok a⟩
    | .error e =>
      let err := classifyError e
      if err.retryable = false ∨ MAX_RETRIES ≤ retries then ⟨1, [], .error err⟩
      else
        let d := retryDelay err (retries + 1)
        let rest := sendGo attempt (retries + 1) fuel
        ⟨rest.attempts + 1, d :: rest.delays, rest.result⟩

def sendRun (attempt : Nat → Except JsError α) : SendRun α :=
  sendGo attempt 0 (MAX_RETRIES + 1)

/-! ### The `stream` retry loop

`ClaudeClient.stream` (lines 267-334) has the same retry skeleton; a
successful attempt yields one chunk per text-delta event and then, with
no further check of the token, one final chunk.  `options.abortSignal`
is consulted exactly once per received event, before the chunk is
emitted.  Cooperative time is a counter over await points: receiving an
event and sleeping between retries each advance it by one, and the
abort signal is a predicate on it.  Chunks are recorded with their
emission time. -/

structure StreamChunk where
  text : String
  isComplete : Bool
  accumulated : String
deriving DecidableEq

inductive AttemptSpec where
  | succeeds (events : List String)
  | fails (events : List String) (e : JsError)

inductive StreamOutcome where
  | completed
  | abortedEarly
  | failed (err : AIError)
  | outOfFuel
deriving DecidableEq

structure EmitResult where
  acc : String
  time : Nat
  chunks : List (Nat × StreamChunk)
  aborted : Bool
deriving DecidableEq

/-- The body of `for await (const event of stream)`: each text-delta
event first checks `options.abortSignal?.aborted` (returning from the
generator when it is set), then appends the delta and yields a
non-final chunk carrying the accumulated text. -/
def emitEvents (ab : Nat → Bool) : List String → String → Nat → EmitResult
  | [], acc, t => ⟨acc, t, [], false⟩
  | s :: rest, acc, t =>
    if ab t then ⟨acc, t, [], true⟩
    else
      let acc2 := acc ++ s
      let r := emitEvents ab rest acc2 (t + 1)
      ⟨r.acc, r.time, (t, ⟨s, false, acc2⟩) :: r.chunks, r.aborted⟩

structure StreamRun where
  chunks : List (Nat × StreamChunk)
  attempts : Nat
  delays : List Nat
  outcome : StreamOutcome
deriving DecidableEq

def streamGo (f : Nat → AttemptSpec) (ab : Nat → Bool) : Nat → Nat → Nat → StreamRun
  | _, 0, _ => ⟨[], 0, [], .outOfFuel⟩
  | retries, fuel + 1, t =>
    match f retries with
    | .succeeds events =>
      let r := emitEvents ab events "" t
      if r.aborted then ⟨r.chunks, 1, [], .abortedEarly⟩
      else
        ⟨r.chunks ++ [(r.time, ⟨"", true, r.acc⟩)], 1, [], .completed⟩
    | .fails events e =>
      let r := emitEvents ab events "" t
      if r.aborted then ⟨r.chunks, 1, [], .abortedEarly⟩
      else
        let err := classifyError e
        if err.retryable = false ∨ MAX_RETRIES ≤ retries then ⟨r.chunks, 1, [], .failed err⟩
        else
          let d := retryDelay err (retries + 1)
          let rest := streamGo f ab (retries + 1) fuel (r.time + 1)
          ⟨r.chunks ++ rest.chunks, rest.attempts + 1, d :: rest.delays, rest.outcome⟩

def streamRun (f : Nat → AttemptSpec) (ab : Nat → Bool) : StreamRun :=
  streamGo f ab 0 (MAX_RETRIES + 1) 0

/-! ## Response Directive Parser (src/hooks/useStreamingResponse.ts)

The directive regexes `/^ACTIONS:\s*(\[.*\])\s*$/m` and
`/^CARD:\s*(\{.*\})\s*$/m` are modelled line-wise: since `.` matches no
newline, a match is confined to a single line, and the multiline `^`/`$`
anchors make the leftmost match the first matching line.  Within a
line, the greedy `.*` followed by `\s*$` captures from the opening
bracket to the last closing bracket that is followed only by
whitespace.  (A `\s*` that swallows the newline after the matched line
changes only which whitespace `getDisplayText` deletes, and the final
`trim` hides that for the texts considered here; a stray `\r` inside
the bracketed body, which `.` would reject, does not occur either.)
-/

def dropTrailWs (l : List Char) : List Char :=
  (l.reverse.dropWhile jsWs).reverse

/-- Model of `String.prototype.trim` (ASCII whitespace). -/
def trimStr (s : String) : String :=
  String.mk (dropTrailWs (s.toList.dropWhile jsWs))

/-- Match one line against `^PFX\s*(OPEN.*CLOSE)\s*$` and return the
captured bracketed payload. -/
def linePayload (pfx : String) (openCh closeCh : Char) (line : String) : Option String :=
  match stripLit line.toList pfx.toList with
  | none => none
  | some r =>
    let r1 := r.dropWhile jsWs
    match r1 with
    | c :: _ =>
      if c = openCh then
        let body := dropTrailWs r1
        match body.getLast? with
        | some d => if d = closeCh then some (String.mk body) else none
        | none => none
      else none
    | [] => none

/-- First line of `text` carrying a well-delimited directive payload. -/
def extractDirective (pfx : String) (openCh closeCh : Char) (text : String) : Option String :=
  (splitLines text).findSome? (linePayload pfx openCh closeCh)

/-- The shape `parseActions` builds for each kept element: `label` and
`command` are guaranteed strings by the filter, `variant` is
`a.variant || 'default'`, and `icon`/`params` are passed through raw
(`none` models `undefined`). -/
structure ResponseAction where
  label : String
  command : String
  variant : Json
  icon : Option Json
  params : Option Json
deriving DecidableEq

/-- One element of the parsed array, as treated by the
`filter(...).map(...)` chain: `none` means the element is dropped
(`typeof a.label` or `typeof a.command` is not `'string'`). -/
def toAction (a : Json) : Option ResponseAction :=
  match jsGet a "label", jsGet a "command" with
  | some (.str l), some (.str c) =>
    some ⟨l, c, jsOrElse (jsGet a "variant") (.str "default"), jsGet a "icon", jsGet a "params"⟩
  | _, _ => none

/-- The whole `filter(...).map(...)` chain, which runs inside the same
`try` as `JSON.parse`: a `null` element makes `a.label` throw a
`TypeError`, so the catch turns the whole list into `[]` — modelled by
the `none` result. -/
def filterMapActions : List Json → Option (List ResponseAction)
  | [] => some []
  | a :: rest =>
    if a = Json.null then none
    else
      match filterMapActions rest with
      | none => none
      | some acts =>
        match toAction a with
        | some act => some (act :: acts)
        | none => some acts

/-- Port of `parseActions` (useStreamingResponse.ts lines 88-110). -/
def parseActions (text : String) : List ResponseAction :=
  match extractDirective "ACTIONS:" '[' ']' text with
  | none => []
  | some payload =>
    match jsonParse payload with
    | none => []
    | some (.arr xs) =>
      (match filterMapActions xs with
       | some acts => acts
       | none => [])
    | some _ => []

structure CardHeader where
  title : String
  icon : Option Json
  accentColor : Option Json
deriving DecidableEq

/-- Port of `parseCardHeader` (useStreamingResponse.ts lines 116-132):
the payload is brace-delimited, so a successful parse is an object, and
the card is kept only when its `title` is a string. -/
def parseCardHeader (text : String) : Option CardHeader :=
  match extractDirective "CARD:" '{' '}' text with
  | none => none
  | some payload =>
    match jsonParse payload with
    | none => none
    | some parsed =>
      match jsGet parsed "title" with
      | some (.str t) => some ⟨t, jsGet parsed "icon", jsGet parsed "accentColor"⟩
      | _ => none

/-- Blank out the first line satisfying `p` (JavaScript `replace`
without the `g` flag deletes only the first match, and the match is the
line content, not its surrounding newlines). -/
def blankFirst (p : String → Bool) : List String → List String
  | [] => []
  | l :: ls => if p l then "" :: ls else l :: blankFirst p ls

/-- Port of `getDisplayText` (useStreamingResponse.ts lines 138-143):
remove the first CARD line, then the first ACTIONS line, then trim. -/
def getDisplayText (text : String) : String :=
  let ls := splitLines text
  let ls1 := blankFirst (fun l => (linePayload "CARD:" '{' '}' l).isSome) ls
  let ls2 := blankFirst (fun l => (linePayload "ACTIONS:" '[' ']' l).isSome) ls1
  trimStr (joinLines ls2)

/-! ## Conversation Session Controller (useStreamingResponse.sendMessage)

`sendMessage` (lines 164-263) is modelled as a pure function of the
pre-call hook state, the typed text, and the behaviour of the client
stream for this turn: the chunks it delivers and how it ends.  The
abort check `abortController.signal.aborted || !mountedRef.current` is
a predicate `ab` on the number of chunks already consumed (the
component is taken to stay mounted); index `chunks.length` is the check
in the `catch` block.  React state updates are modelled as in-place
record updates; the `cardHeader` binding captured by the `useCallback`
closure keeps its pre-call value for the whole turn, which is why the
`if (!cardHeader)` test reads the captured value while updates land in
the live state.  A thrown error is the client's classified `AIError`
(its `type` field is always set, so the `aiError.type ?` fallback
branch is not taken); the second component of the result records the
`conversationHistory` option passed to `claudeClient.stream`, `none`
when no request was issued. -/

inductive Role where
  | user
  | assistant
deriving DecidableEq

structure Message where
  role : Role
  content : String
deriving DecidableEq

inductive StreamState where
  | idle
  | sending
  | streaming
  | complete
  | error
deriving DecidableEq

structure HookState where
  streamState : StreamState
  response : String
  error : Option AIError
  actions : List ResponseAction
  cardHeader : Option CardHeader
  conversationHistory : List Message
deriving DecidableEq

/-- JavaScript `arr.slice(-n)`: the `n` most recent elements. -/
def sliceLast (n : Nat) (l : List α) : List α :=
  l.drop (l.length - n)

inductive StreamEnd where
  | success
  | failure (e : AIError)
deriving DecidableEq

/-- The `for await (const chunk of claudeClient.stream(...))` body; the
Bool result records an early `return` on an observed abort. -/
def hookLoop (capturedCard : Option CardHeader) (upd : List Message) (ab : Nat → Bool) :
    List StreamChunk → Nat → HookState → HookState × Bool
  | [], _, cur => (cur, false)
  | c :: rest, i, cur =>
    if ab i then (cur, true)
    else
      let full := c.accumulated
      let cur1 := { cur with response := full }
      let cur2 :=
        if capturedCard.isNone then
          match parseCardHeader full with
          | some card => { cur1 with cardHeader := some card }
          | none => cur1
        else cur1
      let cur3 :=
        if c.isComplete then
          let withActs := { cur2 with actions := parseActions full }
          let withCard :=
            match parseCardHeader full with
            | some card => { withActs with cardHeader := some card }
            | none => withActs
          { withCard with
            conversationHistory := upd ++ [⟨.assistant, full⟩],
            streamState := .complete }
        else cur2
      hookLoop capturedCard upd ab rest (i + 1) cur3

/-- Port of `useStreamingResponse.sendMessage` for one call with no
concurrent turn: blank input is a no-op; otherwise the state is reset,
the user turn is appended to a local `updatedHistory` (the React state
is not written here), the stream is consumed, and the ending is
handled as in the `try`/`catch`. -/
def sendMessage (st : HookState) (text : String) (chunks : List StreamChunk)
    (ending : StreamEnd) (ab : Nat → Bool) : HookState × Option (List Message) :=
  if trimStr text = "" then (st, none)
  else
    let upd := st.conversationHistory ++ [⟨.user, text⟩]
    let req := sliceLast 10 upd
    let st0 : HookState :=
      { st with
        streamState := .streaming
        response := ""
        error := none
        actions := []
        cardHeader := none }
    let lr := hookLoop st.cardHeader upd ab chunks 0 st0
    let final :=
      if lr.2 then lr.1
      else
        match ending with
        | .success => lr.1
        | .failure e =>
          if ab chunks.length then { lr.1 with streamState := .idle }
          else { lr.1 with error := some e, streamState := .error }
    (final, some req)

/-! ## Speech Session (src/services/voice/speechRecognition.ts)

The session state is the `_state`/`_latestPartial` pair; an operation
returns the new state together with its observable effects: final-result
callback invocations, `onStateChange` notifications, native-module
commands, and whether the 1.5 s fallback timer was armed. -/

inductive VoiceState where
  | idle
  | listening
  | processing
  | error
deriving DecidableEq

structure SpeechState where
  state : VoiceState
  latestPartial : String
deriving DecidableEq

structure SpeechEffects where
  finalResultCalls : List String
  stateChanges : List VoiceState
  nativeCalls : List String
  fallbackTimerSet : Bool
deriving DecidableEq

/-- Port of `SpeechRecognition.stop` (lines 155-169), immediate part:
a guard returns at once unless currently `listening`; otherwise the
state moves to `processing`, the native `stopListening` command is
issued and the 1.5 s fallback timer is armed. -/
def speechStop (s : SpeechState) : SpeechState × SpeechEffects :=
  if s.state ≠ .listening then (s, ⟨[], [], [], false⟩)
  else ({ s with state := .processing }, ⟨[], [.processing], ["stopListening"], true⟩)

/-- Port of the `onSpeechResults` listener (lines 208-215): the final
text is `event?.value?.[0] ?? this._latestPartial ?? ''` (the `??`
falls back only on a nullish payload, never on an empty string, and
`_latestPartial` is never nullish); the final-result callback fires
only when that text is non-empty; `_latestPartial` is cleared and the
state set to `idle` unconditionally. -/
def onSpeechResults (value : Option String) (s : SpeechState) : SpeechState × SpeechEffects :=
  let text := match value with
    | some v => v
    | none => s.latestPartial
  (⟨.idle, ""⟩, ⟨if text ≠ "" then [text] else [], [.idle], [], false⟩)

/-! ## Helper lemmas -/

/-- Every chunk the event loop emits is emitted at an instant where the
abort signal reads false, and is a delta chunk. -/
theorem emitEvents_not_aborted (ab : Nat → Bool) :
    ∀ (events : List String) (acc : String) (t0 t : Nat) (c : StreamChunk),
      (t, c) ∈ (emitEvents ab events acc t0).chunks → ab t = false ∧ c.isComplete = false := by
  intro events
  induction events with
  | nil =>
    intro acc t0 t c hmem
    simp [emitEvents] at hmem
  | cons s rest ih =>
    intro acc t0 t c hmem
    by_cases hab : ab t0 = true
    · simp [emitEvents, hab] at hmem
    · simp only [emitEvents, hab, Bool.false_eq_true, if_false, List.mem_cons] at hmem
      rcases hmem with heq | h2
      · injection heq with ht hc
        subst ht
        subst hc
        exact ⟨by simpa using hab, rfl⟩
      · exact ih _ _ _ _ h2

/-- Across the whole retry loop of `stream`, every non-final chunk is
emitted at an instant where the abort signal reads false.  (The final
chunk of a successful attempt is excluded: the source yields it after
the event loop with no further check of the signal.) -/
theorem streamGo_delta_not_aborted (f : Nat → AttemptSpec) (ab : Nat → Bool) :
    ∀ (fuel retries t0 t : Nat) (c : StreamChunk),
      (t, c) ∈ (streamGo f ab retries fuel t0).chunks → c.isComplete = false →
      ab t = false := by
  intro fuel
  induction fuel with
  | zero =>
    intro retries t0 t c hmem _
    simp [streamGo] at hmem
  | succ n ih =>
    intro retries t0 t c hmem hdelta
    cases hf : f retries with
    | succeeds events =>
      simp only [streamGo, hf] at hmem
      by_cases habort : (emitEvents ab events "" t0).aborted = true
      · simp only [habort, if_true] at hmem
        exact (emitEvents_not_aborted ab events "" t0 t c hmem).1
      · simp only [habort, Bool.false_eq_true, if_false] at hmem
        rcases List.mem_append.mp hmem with h1 | h2
        · exact (emitEvents_not_aborted ab events "" t0 t c h1).1
        · simp at h2
          rw [h2.2] at hdelta
          simp at hdelta
    | fails events e =>
      simp only [streamGo, hf] at hmem
      by_cases habort : (emitEvents ab events "" t0).aborted = true
      · simp only [habort, if_true] at hmem
        exact (emitEvents_not_aborted ab events "" t0 t c hmem).1
      · simp only [habort, Bool.false_eq_true, if_false] at hmem
        by_cases hthrow : (classifyError e).retryable = false ∨ MAX_RETRIES ≤ retries
        · simp only [hthrow, if_true] at hmem
          exact (emitEvents_not_aborted ab events "" t0 t c hmem).1
        · simp only [hthrow, if_false] at hmem
          rcases List.mem_append.mp hmem with h1 | h2
          · exact (emitEvents_not_aborted ab events "" t0 t c h1).1
          · exact ih _ _ _ _ h2 hdelta

/-- With the token never aborted, a run of the chunk loop over delta
chunks only never returns early and never touches the history or the
error slot (those are written only on the final chunk or in the
`catch`). -/
theorem hookLoop_all_deltas (cc : Option CardHeader) (upd : List Message) :
    ∀ (chunks : List StreamChunk) (i : Nat) (cur : HookState),
      (∀ c ∈ chunks, c.isComplete = false) →
      (hookLoop cc upd (fun _ => false) chunks i cur).2 = false ∧
      (hookLoop cc upd (fun _ => false) chunks i cur).1.conversationHistory
        = cur.conversationHistory ∧
      (hookLoop cc upd (fun _ => false) chunks i cur).1.error = cur.error := by
  intro chunks
  induction chunks with
  | nil =>
    intro i cur _
    simp [hookLoop]
  | cons c rest ih =>
    intro i cur hall
    have hc : c.isComplete = false := hall c (List.mem_cons_self c rest)
    have hrest : ∀ d ∈ rest, d.isComplete = false := fun d hd =>
      hall d (List.mem_cons_of_mem c hd)
    simp only [hookLoop, Bool.false_eq_true, if_false, hc]
    cases hcard : parseCardHeader c.accumulated <;>
      cases cc <;>
      simpa [hcard] using ih (i + 1) _ hrest

/-- Whenever `sendMessage` issues a request, the history option it
passes to the client is the ten most recent turns of the updated
history. -/
theorem sendMessage_request (st : HookState) (text : String) (chunks : List StreamChunk)
    (ending : StreamEnd) (ab : Nat → Bool) (ht : trimStr text ≠ "") :
    (sendMessage st text chunks ending ab).2
      = some (sliceLast 10 (st.conversationHistory ++ [⟨.user, text⟩])) := by
  simp [sendMessage, ht]

/-! ## The claims -/

/-- C1: when every underlying attempt of `send` or `stream` fails with
an error that `classifyError` marks retryable, exactly 4 attempts are
made (1 initial + `MAX_RETRIES = 3` retries) and the single error
raised to the caller is the classified error of the last attempt. -/
theorem c1_retry_exhaustion (errs : Nat → JsError)
    (h : ∀ i, (classifyError (errs i)).retryable = true) :
    (sendRun (α := Unit) (fun i => .error (errs i))).attempts = 4 ∧
    (sendRun (α := Unit) (fun i => .error (errs i))).result
      = .error (classifyError (errs 3)) ∧
    (streamRun (fun i => .fails [] (errs i)) (fun _ => false)).attempts = 4 ∧
    (streamRun (fun i => .fails [] (errs i)) (fun _ => false)).outcome
      = .failed (classifyError (errs 3)) := by
  refine ⟨?_, ?_, ?_, ?_⟩ <;>
    simp [sendRun, sendGo, streamRun, streamGo, emitEvents, MAX_RETRIES, h 0, h 1, h 2, h 3]

/-- C1, witness: a transport that always fails with a network error
(retryable) is attempted exactly 4 times and the network classification
is raised. -/
theorem c1_retry_exhaustion_witness :
    (sendRun (α := Unit) (fun _ => .error ⟨"Error", "network down"⟩)).attempts = 4 ∧
    (sendRun (α := Unit) (fun _ => .error ⟨"Error", "network down"⟩)).result
      = .error (classifyError ⟨"Error", "network down"⟩) ∧
    (streamRun (fun _ => .fails [] ⟨"Error", "network down"⟩) (fun _ => false)).attempts = 4 ∧
    (streamRun (fun _ => .fails [] ⟨"Error", "network down"⟩) (fun _ => false)).outcome
      = .failed (classifyError ⟨"Error", "network down"⟩) :=
  c1_retry_exhaustion (fun _ => ⟨"Error", "network down"⟩)
    (fun _ => (by decide : (classifyError ⟨"Error", "network down"⟩).retryable = true))

/-- C2, counterexample: the claim says that once the abort signal is
set no further chunks are delivered and no retry attempt is made, the
token being checked before each retry attempt.  Both parts fail on the
code.  First run: the signal is set from the start and every attempt
fails with a retryable network error, yet 4 attempts are made (the
retry path never consults the signal) instead of the claimed single
one.  Second run: the signal becomes set at instant 1, after the sole
delta of a successful attempt, and the completion chunk is still
delivered at instant 1 because the final yield is not guarded. -/
theorem c2_cancellation_counterexample :
    ((streamRun (fun _ => .fails [] ⟨"Error", "network down"⟩) (fun _ => true)).attempts = 4 ∧
     (streamRun (fun _ => .fails [] ⟨"Error", "network down"⟩) (fun _ => true)).attempts ≠ 1) ∧
    ((1, (⟨"", true, "hi"⟩ : StreamChunk)) ∈
        (streamRun (fun _ => .succeeds ["hi"]) (fun t => decide (1 ≤ t))).chunks ∧
     (fun t => decide (1 ≤ t)) 1 = true) := by
  decide

/-- C2 as amended: once the cancellation token is signalled no further
delta chunk is delivered — the token is checked at each received stream
event before the chunk is emitted — but the token is not consulted
before retry attempts nor before the completion chunk of a successful
attempt, and `send` never consults it at all: a retryable failure still
schedules a retry after cancellation.  Formally: every delta chunk of a
`stream` run is emitted at an instant where the signal reads false. -/
theorem c2_cancellation_amended (f : Nat → AttemptSpec) (ab : Nat → Bool)
    (t : Nat) (c : StreamChunk)
    (hmem : (t, c) ∈ (streamRun f ab).chunks) (hdelta : c.isComplete = false) :
    ab t = false :=
  streamGo_delta_not_aborted f ab (MAX_RETRIES + 1) 0 0 t c hmem hdelta

/-- C2 as amended, witness: a run that emits a delta chunk, at an
instant where the never-set signal indeed reads false. -/
theorem c2_cancellation_amended_witness :
    ((0, (⟨"hi", false, "hi"⟩ : StreamChunk)) ∈
      (streamRun (fun _ => .succeeds ["hi"]) (fun _ => false)).chunks) ∧
    (fun _ : Nat => false) 0 = false :=
  ⟨by decide,
   c2_cancellation_amended (fun _ => .succeeds ["hi"]) (fun _ => false) 0
     ⟨"hi", false, "hi"⟩ (by decide) rfl⟩

/-- C3, counterexample: the claim says an explicit recommended wait
(`retryAfterMs`) is always used as the wait.  A rate-limit error whose
message carries the hint `retry-after: 0` is classified with
`retryAfterMs = 0`, yet the loop waits the exponential schedule 1000,
2000, 4000 ms instead of 0 ms, because `0` is falsy in
`aiError.retryAfterMs || BASE_RETRY_DELAY_MS * 2 ** (retries - 1)`. -/
theorem c3_backoff_counterexample :
    (classifyError ⟨"Error", "429 retry-after: 0"⟩).retryAfterMs = some 0 ∧
    (classifyError ⟨"Error", "429 retry-after: 0"⟩).retryable = true ∧
    (sendRun (α := Unit) (fun _ => .error ⟨"Error", "429 retry-after: 0"⟩)).delays
      = [1000, 2000, 4000] ∧
    (1000 : Nat) ≠ 0 := by
  decide

/-- C3 as amended: the wait before retry `i` is the classified error's
`retryAfterMs` whenever that hint is present and nonzero, and
`1000 * 2 ^ (i - 1)` ms when the hint is absent or zero (zero is falsy
in JavaScript); in particular a rate-limit classification carrying a
15 s hint yields `retryAfterMs = 15000` and a wait of exactly 15000 ms
(hence at least 15000 ms) before every further attempt. -/
theorem c3_backoff_amended (errs : Nat → JsError)
    (h : ∀ i, (classifyError (errs i)).retryable = true) :
    ((sendRun (α := Unit) (fun i => .error (errs i))).delays =
      [retryDelay (classifyError (errs 0)) 1,
       retryDelay (classifyError (errs 1)) 2,
       retryDelay (classifyError (errs 2)) 3] ∧
     (streamRun (fun i => .fails [] (errs i)) (fun _ => false)).delays =
      [retryDelay (classifyError (errs 0)) 1,
       retryDelay (classifyError (errs 1)) 2,
       retryDelay (classifyError (errs 2)) 3]) ∧
    (∀ (err : AIError) (i : Nat), (err.retryAfterMs = none ∨ err.retryAfterMs = some 0) →
      retryDelay err i = BASE_RETRY_DELAY_MS * 2 ^ (i - 1)) ∧
    (∀ (err : AIError) (v i : Nat), err.retryAfterMs = some v → v ≠ 0 →
      retryDelay err i = v) ∧
    ((classifyError ⟨"Error", "429 too many requests, retry-after: 15"⟩).retryAfterMs
      = some 15000 ∧
     (sendRun (α := Unit)
        (fun _ => .error ⟨"Error", "429 too many requests, retry-after: 15"⟩)).delays
      = [15000, 15000, 15000] ∧
     ∀ d ∈ (sendRun (α := Unit)
        (fun _ => .error ⟨"Error", "429 too many requests, retry-after: 15"⟩)).delays,
       15000 ≤ d) := by
  refine ⟨⟨?_, ?_⟩, ?_, ?_, by decide⟩
  · simp [sendRun, sendGo, MAX_RETRIES, h 0, h 1, h 2, h 3]
  · simp [streamRun, streamGo, emitEvents, MAX_RETRIES, h 0, h 1, h 2, h 3]
  · intro err i hv
    rcases hv with hv | hv <;> simp [retryDelay, hv]
  · intro err v i hv hnz
    simp [retryDelay, hv, hnz]

/-- C3 as amended, witness: a persistent network failure carries the
hint 2000 ms, which is used as every wait. -/
theorem c3_backoff_amended_witness :
    (sendRun (α := Unit) (fun _ => .error ⟨"Error", "network down"⟩)).delays
      = [2000, 2000, 2000] :=
  (c3_backoff_amended (fun _ => ⟨"Error", "network down"⟩)
    (fun _ => (by decide : (classifyError ⟨"Error", "network down"⟩).retryable = true))).1.1

/-- C4, counterexample: the claim says that after a failed turn the
history equals the history before the turn plus the user turn.  In the
code `updatedHistory` is only a local value and `setConversationHistory`
runs solely on the final chunk, so after a failure the committed
history does not contain the user turn at all: from an empty history
and the turn `"hi"` failing with a network error, the history afterwards
is `[]`, not `[user "hi"]` — even though the controller does reach the
`error` state with the classified error, as claimed. -/
theorem c4_error_history_counterexample :
    (sendMessage ⟨.idle, "", none, [], none, []⟩ "hi" []
        (.failure (classifyError ⟨"Error", "network down"⟩))
        (fun _ => false)).1.conversationHistory = [] ∧
    ([] : List Message) ≠ [⟨.user, "hi"⟩] ∧
    (sendMessage ⟨.idle, "", none, [], none, []⟩ "hi" []
        (.failure (classifyError ⟨"Error", "network down"⟩))
        (fun _ => false)).1.streamState = .error := by
  decide

/-- C4 as amended: for every turn that fails during streaming (only
delta chunks delivered, then the client raises a classified error, the
token never cancelled), the controller reaches the `error` state
surfacing exactly that classified error, and the committed conversation
history afterwards equals the history before the turn — neither the
user turn (which lived only in the local `updatedHistory`) nor any
assistant turn is appended. -/
theorem c4_error_history_amended (st : HookState) (text : String)
    (chunks : List StreamChunk) (e : AIError)
    (h1 : trimStr text ≠ "") (h2 : ∀ c ∈ chunks, c.isComplete = false) :
    (sendMessage st text chunks (.failure e) (fun _ => false)).1.streamState = .error ∧
    (sendMessage st text chunks (.failure e) (fun _ => false)).1.error = some e ∧
    (sendMessage st text chunks (.failure e) (fun _ => false)).1.conversationHistory
      = st.conversationHistory := by
  obtain ⟨hret, hhist, herr⟩ := hookLoop_all_deltas st.cardHeader
    (st.conversationHistory ++ [⟨.user, text⟩]) chunks 0
    { st with
      streamState := .streaming
      response := ""
      error := none
      actions := []
      cardHeader := none } h2
  simp only [sendMessage, h1, if_false, hret, Bool.false_eq_true]
  refine ⟨trivial, trivial, ?_⟩
  exact hhist

/-- C4 as amended, witness: a turn over a one-turn prior history that
receives one delta chunk and then a network failure ends in the `error`
state with that error, the history still the prior single turn. -/
theorem c4_error_history_amended_witness :
    (sendMessage ⟨.idle, "", none, [], none, [⟨.user, "a"⟩]⟩ "hi" [⟨"ok", false, "ok"⟩]
        (.failure (classifyError ⟨"Error", "network down"⟩))
        (fun _ => false)).1.streamState = .error ∧
    (sendMessage ⟨.idle, "", none, [], none, [⟨.user, "a"⟩]⟩ "hi" [⟨"ok", false, "ok"⟩]
        (.failure (classifyError ⟨"Error", "network down"⟩))
        (fun _ => false)).1.error = some (classifyError ⟨"Error", "network down"⟩) ∧
    (sendMessage ⟨.idle, "", none, [], none, [⟨.user, "a"⟩]⟩ "hi" [⟨"ok", false, "ok"⟩]
        (.failure (classifyError ⟨"Error", "network down"⟩))
        (fun _ => false)).1.conversationHistory = [⟨.user, "a"⟩] :=
  c4_error_history_amended ⟨.idle, "", none, [], none, [⟨.user, "a"⟩]⟩ "hi"
    [⟨"ok", false, "ok"⟩] (classifyError ⟨"Error", "network down"⟩)
    (by decide) (by decide)

/-- C5, counterexample: two parts of the claim fail on the code.
First, an element whose `variant` is the unrecognized non-empty string
`"blue"` keeps that variant — `a.variant || 'default'` only replaces
falsy values, so nothing normalizes unrecognized names to `default`.
Second, elements lacking a string label or command are not always
dropped individually: a JSON `null` element makes the property access
`a.label` throw inside the `try`, so the whole list — including a
well-formed element — collapses to no actions at all. -/
theorem c5_actions_counterexample :
    parseActions "X\nACTIONS: [\x7b\"label\":\"A\",\"command\":\"c\",\"variant\":\"blue\"\x7d]"
      = [⟨"A", "c", Json.str "blue", none, none⟩] ∧
    Json.str "blue" ≠ Json.str "default" ∧
    parseActions "X\nACTIONS: [null, \x7b\"label\":\"A\",\"command\":\"c\"\x7d]" = [] := by
  decide

/-- C5 as amended: the parser drops each non-null element of the
action-list array lacking a string `label` or a string `command` (an
array containing a JSON `null` yields no actions at all, the thrown
property access being caught as an empty list); `variant` defaults to
`default` when absent (or falsy), while an unrecognized non-empty value
passes through unchanged; the directive line is stripped from the
display text; and the round trip of the claim holds: parsing
`"Done.\nACTIONS: [\x7b\"label\":\"A\",\"command\":\"c\"\x7d]"` yields
display text `"Done."` and the single action
`{label: "A", command: "c", variant: "default"}`. -/
theorem c5_actions_amended :
    (parseActions "Done.\nACTIONS: [\x7b\"label\":\"A\",\"command\":\"c\"\x7d]"
        = [⟨"A", "c", Json.str "default", none, none⟩] ∧
     getDisplayText "Done.\nACTIONS: [\x7b\"label\":\"A\",\"command\":\"c\"\x7d]" = "Done.") ∧
    (∀ (a : Json) (l c : String),
      jsGet a "label" = some (.str l) → jsGet a "command" = some (.str c) →
      jsGet a "variant" = none →
      toAction a = some ⟨l, c, .str "default", jsGet a "icon", jsGet a "params"⟩) ∧
    (∀ a : Json,
      ((∀ s, jsGet a "label" ≠ some (Json.str s)) ∨
       (∀ s, jsGet a "command" ≠ some (Json.str s))) →
      toAction a = none) ∧
    (∀ xs : List Json, Json.null ∉ xs →
      filterMapActions xs = some (xs.filterMap toAction)) ∧
    (∀ xs : List Json, Json.null ∈ xs → filterMapActions xs = none) := by
  refine ⟨by decide, ?_, ?_, ?_, ?_⟩
  · intro a l c hl hc hv
    simp [toAction, hl, hc, jsOrElse, hv]
  · intro a h
    unfold toAction
    split
    · rename_i l c hl hc
      rcases h with h | h
      · exact absurd hl (h l)
      · exact absurd hc (h c)
    · rfl
  · intro xs
    induction xs with
    | nil => intro _; rfl
    | cons a rest ih =>
      intro hmem
      have ha : ¬ a = Json.null := fun h => hmem (h ▸ List.mem_cons_self a rest)
      have hrest : Json.null ∉ rest := fun h => hmem (List.mem_cons_of_mem a h)
      simp only [filterMapActions, ha, if_false, ih hrest, List.filterMap_cons]
      cases toAction a <;> simp
  · intro xs
    induction xs with
    | nil => intro h; cases h
    | cons a rest ih =>
      intro hmem
      by_cases ha : a = Json.null
      · simp [filterMapActions, ha]
      · rcases List.mem_cons.mp hmem with h | h
        · exact absurd h.symm ha
        · simp [filterMapActions, ha, ih h]

/-- C5 as amended, witness: an element with string label and command
and no `variant` field maps to an action with variant `default`. -/
theorem c5_actions_amended_witness :
    toAction (Json.obj [("label", Json.str "A"), ("command", Json.str "c")])
      = some ⟨"A", "c", Json.str "default", none, none⟩ :=
  c5_actions_amended.2.1 (Json.obj [("label", Json.str "A"), ("command", Json.str "c")])
    "A" "c" (by decide) (by decide) (by decide)

/-- C6: `parseActions` and `parseCardHeader` are total functions of the
input text (exceptions are confined to the modelled `JSON.parse`
result, which they catch); the truncated directive
`ACTIONS: [{"label":` matches no bracket-delimited directive line, so
it yields no actions and no card header; and whenever a directive line
is present but its payload fails to parse as JSON, the result is
likewise no actions / no card header, never an error. -/
theorem c6_malformed_json_total :
    (parseActions "ACTIONS: [\x7b\"label\":" = [] ∧
     parseCardHeader "ACTIONS: [\x7b\"label\":" = none ∧
     extractDirective "ACTIONS:" '[' ']' "ACTIONS: [\x7b\"label\":" = none) ∧
    (∀ text payload, extractDirective "ACTIONS:" '[' ']' text = some payload →
      jsonParse payload = none → parseActions text = []) ∧
    (∀ text payload, extractDirective "CARD:" '{' '}' text = some payload →
      jsonParse payload = none → parseCardHeader text = none) := by
  refine ⟨by decide, ?_, ?_⟩
  · intro text payload hx hp
    simp [parseActions, hx, hp]
  · intro text payload hx hp
    simp [parseCardHeader, hx, hp]

/-- C6, witness: a complete but ill-formed payload `[}]` is extracted,
fails to parse, and produces no actions. -/
theorem c6_malformed_json_total_witness :
    extractDirective "ACTIONS:" '[' ']' "x\nACTIONS: [\x7d]" = some "[\x7d]" ∧
    jsonParse "[\x7d]" = none ∧
    parseActions "x\nACTIONS: [\x7d]" = [] :=
  ⟨by decide, by decide,
   c6_malformed_json_total.2.1 "x\nACTIONS: [\x7d]" "[\x7d]" (by decide) (by decide)⟩

/-- C7: whatever history the hook state has accumulated, the
conversation history passed to the Completion Client request holds at
most 10 turns and is a suffix — hence the most recent turns in
chronological order — of the updated history (prior turns plus the new
user turn). -/
theorem c7_history_bound (st : HookState) (text : String) (chunks : List StreamChunk)
    (ending : StreamEnd) (ab : Nat → Bool) (req : List Message)
    (h : (sendMessage st text chunks ending ab).2 = some req) :
    req.length ≤ 10 ∧ req <:+ (st.conversationHistory ++ [⟨.user, text⟩]) := by
  by_cases ht : trimStr text = ""
  · simp [sendMessage, ht] at h
  · rw [sendMessage_request st text chunks ending ab ht] at h
    have hre := Option.some.inj h
    subst hre
    constructor
    · simp only [sliceLast, List.length_drop]
      omega
    · exact List.drop_suffix _ _

/-- C7, witness: after 50 accumulated turns, the history passed for the
next turn is bounded by 10 and is a suffix of the 51-turn updated
history. -/
theorem c7_history_bound_witness :
    (sliceLast 10 (List.replicate 50 (⟨Role.user, "x"⟩ : Message)
        ++ [⟨Role.user, "go"⟩])).length ≤ 10 ∧
    sliceLast 10 (List.replicate 50 (⟨Role.user, "x"⟩ : Message) ++ [⟨Role.user, "go"⟩])
      <:+ (List.replicate 50 (⟨Role.user, "x"⟩ : Message) ++ [⟨Role.user, "go"⟩]) :=
  c7_history_bound ⟨.idle, "", none, [], none, List.replicate 50 ⟨.user, "x"⟩⟩ "go" []
    .success (fun _ => false) _ (by decide)

/-- C8, counterexample: the claim says every error classified as
`timeout` is fatal and not retried.  But `classifyError` marks
message-based timeouts (`"Request timed out"`) as `timeout` with
`retryable = true`, and the loop then makes all 4 attempts instead of
surfacing the error immediately. -/
theorem c8_timeout_retry_counterexample :
    (classifyError ⟨"Error", "Request timed out"⟩).type = .timeout ∧
    (classifyError ⟨"Error", "Request timed out"⟩).retryable = true ∧
    (sendRun (α := Unit) (fun _ => .error ⟨"Error", "Request timed out"⟩)).attempts = 4 ∧
    (4 : Nat) ≠ 1 := by
  decide

/-- C8 as amended: only a cancellation (an `AbortError` name or an
`aborted` message) is classified fatal — under the `timeout` label with
`retryable = false` — and any non-retryable classification surfaces
immediately from both `send` and `stream` after a single attempt;
message-indicated timeouts are classified retryable and are retried. -/
theorem c8_fatal_amended (e : JsError) (h : (classifyError e).retryable = false) :
    ((sendRun (α := Unit) (fun _ => .error e)).attempts = 1 ∧
     (sendRun (α := Unit) (fun _ => .error e)).result = .error (classifyError e)) ∧
    ((streamRun (fun _ => .fails [] e) (fun _ => false)).attempts = 1 ∧
     (streamRun (fun _ => .fails [] e) (fun _ => false)).outcome
       = .failed (classifyError e)) ∧
    ((classifyError ⟨"AbortError", "signal is aborted"⟩).retryable = false ∧
     (classifyError ⟨"AbortError", "signal is aborted"⟩).type = .timeout) := by
  refine ⟨?_, ?_, by decide⟩
  · simp [sendRun, sendGo, MAX_RETRIES, h]
  · simp [streamRun, streamGo, emitEvents, MAX_RETRIES, h]

/-- C8 as amended, witness: an aborted request is attempted once in
both loops. -/
theorem c8_fatal_amended_witness :
    (sendRun (α := Unit) (fun _ => .error ⟨"AbortError", "signal is aborted"⟩)).attempts
      = 1 ∧
    (streamRun (fun _ => .fails [] ⟨"AbortError", "signal is aborted"⟩)
        (fun _ => false)).attempts = 1 :=
  ⟨(c8_fatal_amended ⟨"AbortError", "signal is aborted"⟩ (by decide)).1.1,
   (c8_fatal_amended ⟨"AbortError", "signal is aborted"⟩ (by decide)).2.1.1⟩

/-- C9, counterexample: the claim says the final-result callback fires
exactly once, falling back to the last partial transcript when the
platform delivers an empty final payload.  But `??` falls back only on
a nullish payload: when the platform delivers the empty string as the
final payload while the last partial is `"hello"`, the code invokes no
callback at all (the claimed invocation with `"hello"` does not
happen), though it still clears the partial and goes idle. -/
theorem c9_final_result_counterexample :
    (onSpeechResults (some "") ⟨.processing, "hello"⟩).2.finalResultCalls = [] ∧
    (onSpeechResults (some "") ⟨.processing, "hello"⟩).2.finalResultCalls ≠ ["hello"] ∧
    (onSpeechResults (some "") ⟨.processing, "hello"⟩).1 = ⟨.idle, ""⟩ := by
  decide

/-- C9 as amended: on a final-result event the session invokes the
final-result callback at most once — with the platform text when the
payload is present (even an empty string, in which case nothing is
invoked), and with the last partial transcript only when the payload is
missing (nullish); no callback fires when the resulting text is empty;
`partialTranscript` is cleared and the state becomes `idle`
unconditionally. -/
theorem c9_final_result_amended (value : Option String) (s : SpeechState) :
    onSpeechResults value s =
      (⟨.idle, ""⟩,
       ⟨if value.getD s.latestPartial = "" then [] else [value.getD s.latestPartial],
        [.idle], [], false⟩) := by
  cases value <;> simp [onSpeechResults, ite_not, Option.getD]

/-- C10: calling `stop()` while the state is not `listening` is a
no-op: the state is unchanged, no callback (final-result or
state-change) is invoked, no native command is issued, and no fallback
timer is armed. -/
theorem c10_stop_noop (s : SpeechState) (h : s.state ≠ .listening) :
    speechStop s = (s, ⟨[], [], [], false⟩) := by
  simp [speechStop, h]

/-- C10, witness: `stop()` in the `idle` state with a pending partial
transcript changes nothing and emits nothing. -/
theorem c10_stop_noop_witness :
    ((⟨.idle, "partial text"⟩ : SpeechState).state ≠ .listening) ∧
    speechStop ⟨.idle, "partial text"⟩ = (⟨.idle, "partial text"⟩, ⟨[], [], [], false⟩) :=
  ⟨by decide, c10_stop_noop ⟨.idle, "partial text"⟩ (by decide)⟩

end NeuralOS
